import Mathlib

/-!
# Verification of the Svelte client-transform lowering for each blocks and call expressions

This file gives a shallow embedding, in Lean 4, of two visitors of the Svelte
compiler's client transform phase:

* `EachBlock` (the lowering of `{#each ...}` iteration constructs), and
* `CallExpression` (the lowering of rune calls and the dev-mode `console.*` rewrite),

and proves properties of the lowering decisions they make: the flags bitset,
the installed binding strategies (read/assign/mutate), the emitted declaration
lists, the key function, the renderer parameter list, and the async wrapper.

The generic expression/statement visitor, scope analysis and the AST builder
module are external collaborators of these two visitors; they are modelled by
structure-preserving embeddings and by explicit input fields carrying the facts
the visitors consult (dependency sets, scope lookups, evaluation results).
-/

namespace SvelteLower

/-- Input-language expressions (the estree expressions the visitors inspect):
identifiers, non-computed member accesses, calls, and literals.  This is the
fragment the lowered constructs' own checks discriminate on
(`node.expression.type === 'Identifier' || ... === 'MemberExpression'`,
`node.key?.type === 'Identifier'`). -/
inductive InExpr where
  | ident : String → InExpr
  | member : InExpr → String → InExpr
  | call : InExpr → List InExpr → InExpr
  | lit : Int → InExpr

/-- Destructuring patterns for the each block's item (`node.context`): a plain
identifier, a pattern with a default value (estree `AssignmentPattern`), an
object pattern, or an array pattern. -/
inductive Pattern where
  | pid : String → Pattern
  | pdefault : Pattern → InExpr → Pattern
  | pobject : List (String × Pattern) → Pattern
  | parray : List Pattern → Pattern

mutual
/-- Output-language expressions, mirroring the builder (`b.*`) vocabulary the
two visitors use: `b.id`, `b.literal`, `b.member`, `b.call`, `b.sequence`,
`b.assignment`, `b.thunk`/`b.arrow` (expression body, with async flag),
`b.arrow` (block body), `b.spread`, `b.array`, and a pattern in parameter
position. -/
inductive JSExpr where
  | id : String → JSExpr
  | litStr : String → JSExpr
  | litNum : Int → JSExpr
  | undef : JSExpr
  | btrue : JSExpr
  | member : JSExpr → JSExpr → Bool → JSExpr
  | call : JSExpr → List JSExpr → JSExpr
  | seq : List JSExpr → JSExpr
  | assignE : String → JSExpr → JSExpr → JSExpr
  | arrowE : List JSExpr → Bool → JSExpr → JSExpr
  | arrowB : List JSExpr → List JSStmt → JSExpr
  | spreadE : JSExpr → JSExpr
  | arr : List JSExpr → JSExpr
  | pat : Pattern → JSExpr

/-- Output-language statements the lowering emits: `b.var`, `b.let`, and
expression statements (`b.stmt`). -/
inductive JSStmt where
  | varDecl : String → JSExpr → JSStmt
  | letDecl : JSExpr → JSExpr → JSStmt
  | exprStmt : JSExpr → JSStmt
end

mutual
/-- Structure-preserving embedding of input expressions into output
expressions.  This models the external generic visitor's lowering of an
expression under a transform table whose entries for the names of interest
are the identity (the ambient, externally-installed transforms are outside
this core's scope). -/
def embedIn : InExpr → JSExpr
  | .ident n => .id n
  | .member o p => .member (embedIn o) (.litStr p) false
  | .call f args => .call (embedIn f) (embedInList args)
  | .lit n => .litNum n

def embedInList : List InExpr → List JSExpr
  | [] => []
  | e :: rest => embedIn e :: embedInList rest
end

mutual
/-- Does the input expression contain a (free) reference to the given name?
Models the visitor calling the installed `read` transform for every
reference to that binding while lowering the expression. -/
def readsName : InExpr → String → Bool
  | .ident n, i => n == i
  | .member o _, i => readsName o i
  | .call f args, i => readsName f i || readsNameList args i
  | .lit _, _ => false

def readsNameList : List InExpr → String → Bool
  | [], _ => false
  | e :: rest, i => readsName e i || readsNameList rest i
end

/-- `object(expression)` from `utils/ast.js`.
Modelled from the spec: the scope collaborators outside `src/` resolve a
member chain to its base identifier ("Determine whether the collection
expression is itself a store-subscription identifier/member access"): walk
member accesses down to the base; return it when it is an identifier. -/
def objectBase : InExpr → Option String
  | .ident n => some n
  | .member o _ => objectBase o
  | .call _ _ => none
  | .lit _ => none

/-- `get_value` from `shared/declarations.js`.
Modelled from the spec: the "reactive-read form" of a reference is the
runtime read call wrapping the node (`$.get(node)`). -/
def get_value (node : JSExpr) : JSExpr := .call (.id "$.get") [node]

/-- A binding record, as produced by the external scope analysis: its `kind`
(`'store_sub'` for a store subscription, other strings otherwise), the
`function_depth` of its declaring scope (`binding.scope.function_depth`), and
whether the binding was ever the target of a plain reassignment. -/
structure Binding where
  kind : String
  function_depth : Nat
  reassigned : Bool

/-- A structural child of the each block's body, as far as the animation check
discriminates: a `RegularElement`/`SvelteElement` with a flag for whether
some attribute is an `AnimateDirective`, or any other kind of child node. -/
inductive Child where
  | regularElement : (hasAnimateDirective : Bool) → Child
  | svelteElement : (hasAnimateDirective : Bool) → Child
  | otherChild : Child

/-- The input to `EachBlock`: the fields of the `AST.EachBlock` node and of the
ambient `ComponentContext` that the visitor consults.  Facts produced by the
external collaborators (scope analysis, the generic visitor's traversal of the
body, the ancestor-path walk) are carried as explicit fields. -/
structure EachInput where
  /-- `node.expression`, the collection expression. -/
  expression : InExpr
  /-- `node.metadata.expression.dependencies`. -/
  deps : List Binding
  /-- `node.metadata.expression.has_await`. -/
  has_await : Bool
  /-- `node.metadata.keyed`. -/
  keyed : Bool
  /-- `each_node_meta.is_controlled`. -/
  is_controlled : Bool
  /-- `each_node_meta.contains_group_binding`. -/
  contains_group_binding : Bool
  /-- The identifier names of `each_node_meta.transitive_deps` bindings. -/
  transitive_deps : List String
  /-- The identifier names of the transitive deps of every enclosing each
  block on `context.path` (`collect_parent_each_blocks`). -/
  parent_transitive_deps : List String
  /-- `node.key`. -/
  key : Option InExpr
  /-- `node.context`, the item pattern. -/
  context : Option Pattern
  /-- `node.index`. -/
  index : Option String
  /-- `node.body.nodes`, as far as the animation check inspects them. -/
  body : List Child
  /-- The external generic visitor's lowering of `node.body` under
  `child_state` (`context.visit(node.body, child_state)`). -/
  body_block : List JSStmt
  /-- Whether the body traversal fired any installed callback that sets
  `uses_index` (an index `read`, or an `assign`/`mutate` of the item). -/
  body_uses_index : Bool
  /-- The external lowering of `node.fallback`, when present. -/
  fallback : Option (List JSStmt)
  /-- `context.state.analysis.runes`. -/
  runes : Bool
  /-- `dev` from the compiler state. -/
  dev : Bool
  /-- `context.state.scope.declarations`: the names (with bindings) declared
  in the each block's own scope. -/
  scope_own : List (String × Binding)
  /-- The flattened ancestor scope chain, nearest first: `scope.parent.get`
  resolves a name by walking this chain. -/
  scope_ancestors : List (String × Binding)
  /-- `context.state.scope.function_depth`. -/
  function_depth : Nat
  /-- The name of the pre-generated unique index identifier
  `each_node_meta.index`. -/
  meta_index : String
  /-- The name of `context.state.node`, the anchor. -/
  node_id : String

/-- `context.state.scope.get(name)`: resolve in the each block's own scope,
then up the ancestor chain. -/
def scopeGet (inp : EachInput) (name : String) : Option Binding :=
  match inp.scope_own.lookup name with
  | some b => some b
  | none => inp.scope_ancestors.lookup name

/-- `context.state.scope.parent.get(name)`: resolve in the ancestor chain. -/
def parentGet (inp : EachInput) (name : String) : Option Binding :=
  inp.scope_ancestors.lookup name

/-! The five flag constants from `constants.js` (the file is outside `src/`;
the values are the runtime contract's distinct bits — the spec fixes only
that the five facets are independent set bits of an opaque integer). -/

def EACH_ITEM_REACTIVE : Nat := 1
def EACH_INDEX_REACTIVE : Nat := 2
def EACH_IS_CONTROLLED : Nat := 4
def EACH_IS_ANIMATED : Nat := 8
def EACH_ITEM_IMMUTABLE : Nat := 16

/-- The `(flags & CONSTANT) !== 0` test the lowering uses on the bitset. -/
def hasFlag (flags c : Nat) : Bool := flags &&& c != 0

/-- `key_is_item`: the key expression is an identifier, the item pattern is a
plain identifier, and they have the same name (lines 51–54). -/
def key_is_item (inp : EachInput) : Bool :=
  match inp.key, inp.context with
  | some (.ident kn), some (.pid cn) => kn == cn
  | _, _ => false

/-- `uses_store`: some dependency of the collection expression is a store
subscription (lines 58–65). -/
def uses_store (inp : EachInput) : Bool :=
  inp.deps.any (fun b => b.kind == "store_sub")

/-- The loop of lines 67–80: the `EACH_ITEM_REACTIVE` bit is set when some
dependency is declared at a shallower function depth than the construct's own
scope and `!runes || !key_is_item || uses_store` holds. -/
def item_reactive_cond (inp : EachInput) : Bool :=
  inp.deps.any (fun b => b.function_depth < inp.function_depth)
    && (!inp.runes || !key_is_item inp || uses_store inp)

/-- The per-child test of lines 91–94: the child is a
`RegularElement`/`SvelteElement` and some attribute is an
`AnimateDirective`. -/
def child_has_animate : Child → Bool
  | .regularElement h => h
  | .svelteElement h => h
  | .otherChild => false

/-- The animation check of lines 89–97: the key is present and some body child
is a `RegularElement`/`SvelteElement` with an `AnimateDirective` attribute. -/
def animated_cond (inp : EachInput) : Bool :=
  inp.key.isSome && inp.body.any child_has_animate

/-- The flags bitset, accumulated by the `flags |= ...` statements of
lines 45–101. -/
def each_flags (inp : EachInput) : Nat :=
  let f0 : Nat := 0
  let f1 := if inp.keyed && inp.index.isSome then f0 ||| EACH_INDEX_REACTIVE else f0
  let f2 := if item_reactive_cond inp then f1 ||| EACH_ITEM_REACTIVE else f1
  let f3 := if inp.runes && !uses_store inp then f2 ||| EACH_ITEM_IMMUTABLE else f2
  let f4 := if animated_cond inp then f3 ||| EACH_IS_ANIMATED else f3
  let f5 := if inp.is_controlled then f4 ||| EACH_IS_CONTROLLED else f4
  f5

/-- Lines 105–114: when the collection expression is an identifier or member
access whose base identifier resolves to a store subscription, its name is
recorded as the store to invalidate (the code records `''` otherwise; the
absent case is modelled as `none`). -/
def store_to_invalidate (inp : EachInput) : Option String :=
  match inp.expression with
  | .ident _ | .member _ _ =>
    match objectBase inp.expression with
    | some n =>
      match scopeGet inp n with
      | some b => if b.kind == "store_sub" then some n else none
      | none => none
    | none => none
  | _ => none

/-- Lines 116–127: a unique `$$array` capture identifier is allocated exactly
when some name declared in the construct's own scope also resolves in an
ancestor scope (`scope.root.unique('$$array')` is modelled by the fixed fresh
name, unique by its `$$` prefix). -/
def collection_id (inp : EachInput) : Option String :=
  if inp.scope_own.any (fun p => (parentGet inp p.1).isSome) then some "$$array"
  else none

/-- The lowered collection expression (`build_expression` under the parent
scope, line 32): the external visitor's structure-preserving lowering. -/
def collection (inp : EachInput) : JSExpr := embedIn inp.expression

/-- Line 143: the index identifier used inside the renderer — the
pre-generated unique one when a group binding is present or no index name was
requested, the requested name otherwise. -/
def index_expr (inp : EachInput) : JSExpr :=
  if inp.contains_group_binding || inp.index.isNone then .id inp.meta_index
  else .id (inp.index.getD "")

/-- Line 145: the item parameter — the context identifier when the item
pattern is a plain identifier, the fresh `$$item` otherwise. -/
def item_expr (inp : EachInput) : JSExpr :=
  match inp.context with
  | some (.pid n) => .id n
  | _ => .id "$$item"

/-- Lines 180–193: the set of transitive-dependency identifiers to invalidate
in legacy mode — the capture identifier alone when one was allocated, else the
construct's recorded transitive deps; plus, always, the transitive deps of
every enclosing each block. -/
def all_transitive_deps (inp : EachInput) : List String :=
  (match collection_id inp with
   | some c => [c]
   | none => inp.transitive_deps) ++ inp.parent_transitive_deps

/-- Line 201: an invalidation-thunk element — a transitive-dependency
identifier visited under `child_state`, where the capture identifier's
installed transform reads it as a call (`read: b.call`) and other identifiers
are lowered by the ambient (external) transform. -/
def visit_transitive_dep (inp : EachInput) (name : String) : JSExpr :=
  if collection_id inp = some name then .call (.id name) [] else .id name

/-- Lines 169–213: the invalidation side-effect sequence appended after
assignments and mutations.  In legacy (non-runes) mode, when transitive
dependencies exist, the transitive-signal invalidation call is pushed first;
the store invalidation call, when a store applies, is pushed after it. -/
def each_sequence (inp : EachInput) : List JSExpr :=
  (if !inp.runes && !(all_transitive_deps inp).isEmpty then
    [JSExpr.call (.id "$.invalidate_inner_signals")
      [.arrowE [] false (.seq ((all_transitive_deps inp).map (visit_transitive_dep inp)))]]
   else []) ++
  (match store_to_invalidate inp with
   | some n => [JSExpr.call (.id "$.invalidate_store") [.id "$$stores", .litStr n]]
   | none => [])

/-- Lines 224–228 and 236–240: the indexed member access into the live
collection — through the captured identifier (called) when one was allocated,
the lowered collection expression otherwise; the index is read through the
reactive accessor when the index-reactive bit is set. -/
def indexed_member (inp : EachInput) : JSExpr :=
  .member
    (match collection_id inp with
     | some c => .call (.id c) []
     | none => collection inp)
    (if hasFlag (each_flags inp) EACH_INDEX_REACTIVE then get_value (index_expr inp)
     else index_expr inp)
    true

/-- Lines 218–232: the `read` strategy installed for a plain-identifier item
pattern.  `bdg` is `context.state.scope.get(node.context.name)`. -/
def item_read (inp : EachInput) (bdg : Binding) (node : JSExpr) : JSExpr :=
  if bdg.reassigned then indexed_member inp
  else if hasFlag (each_flags inp) EACH_ITEM_REACTIVE then get_value node
  else node

/-- Lines 233–243: the `assign` strategy installed for a plain-identifier item
pattern: an indexed write into the live collection followed by the
invalidation sequence, as one sequence expression. -/
def item_assign (inp : EachInput) (value : JSExpr) : JSExpr :=
  .seq (.assignE "=" (indexed_member inp) value :: each_sequence inp)

/-- Lines 244–247: the `mutate` strategy installed for a plain-identifier item
pattern: the in-place mutation followed by the invalidation sequence. -/
def item_mutate (inp : EachInput) (mutation : JSExpr) : JSExpr :=
  .seq (mutation :: each_sequence inp)

/-- Line 252: the unwrapped item a destructuring pattern decomposes —
`$.get(item)` when the item-reactive bit is set, the raw item otherwise. -/
def unwrapped_item (inp : EachInput) : JSExpr :=
  if hasFlag (each_flags inp) EACH_ITEM_REACTIVE then .call (.id "$.get") [item_expr inp]
  else item_expr inp

/-- A hoisted default-value insert returned by `extract_paths`: a fresh
identifier (renamed by the caller) and the default-value sub-expression. -/
structure Insert where
  insId : String
  value : InExpr

/-- A leaf-binding path returned by `extract_paths`: the leaf identifier, a
flag recording whether a default value applies on the way to it, the access
expression computing the leaf from the (unwrapped) item, and the update path
used by the leaf's `assign` strategy. -/
structure PathInfo where
  node : String
  has_default_value : Bool
  expression : JSExpr
  update_expression : JSExpr

mutual
/-- `extract_paths` from `utils/ast.js`.
Modelled from the spec: the decomposition of a destructuring pattern (the
file is outside `src/`) "into the set of leaf bindings plus any default-value
'insert' sub-expressions": one `PathInfo` per leaf identifier, carrying the
member-access chain from the base and whether a default value applies to it,
and one `Insert` per default-value sub-expression, hoisted so the default is
evaluated once per reactive update.  The leaf's update path is modelled by
the same access chain. -/
def extract_paths_go : Pattern → JSExpr → List Insert × List PathInfo
  | .pid n, base => ([], [⟨n, false, base, base⟩])
  | .pdefault p v, base =>
    let r := extract_paths_go p base
    (⟨"", v⟩ :: r.1, r.2.map (fun pi => { pi with has_default_value := true }))
  | .pobject props, base => extract_paths_props props base
  | .parray els, base => extract_paths_elems els base 0

def extract_paths_props : List (String × Pattern) → JSExpr → List Insert × List PathInfo
  | [], _ => ([], [])
  | (k, p) :: rest, base =>
    let r1 := extract_paths_go p (.member base (.litStr k) false)
    let r2 := extract_paths_props rest base
    (r1.1 ++ r2.1, r1.2 ++ r2.2)

def extract_paths_elems : List Pattern → JSExpr → Nat → List Insert × List PathInfo
  | [], _, _ => ([], [])
  | p :: rest, base, i =>
    let r1 := extract_paths_go p (.member base (.litNum (Int.ofNat i)) true)
    let r2 := extract_paths_elems rest base (i + 1)
    (r1.1 ++ r2.1, r1.2 ++ r2.2)
end

/-- Lines 256–262: the `var` declaration emitted for one hoisted
default-value insert — a `$.derived` over the thunked, lowered default-value
expression, under the generated `$$array` name of line 257 (modelled with the
insert position appended for uniqueness). -/
def insert_decl (q : Nat × Insert) : JSStmt :=
  .varDecl ("$$array_" ++ toString q.1)
    (.call (.id "$.derived") [.arrowE [] false (embedIn q.2.value)])

/-- Lines 264–292: the declarations emitted for one leaf path — a `let` of a
`$.derived_safe_equal` over the thunked access expression when a default
value applies (so the default is evaluated once per update), the bare thunk
otherwise; in dev mode followed by an eager read of the leaf through its
`read` form (lines 285–289). -/
def path_decls (dev : Bool) (path : PathInfo) : List JSStmt :=
  JSStmt.letDecl (.id path.node)
    (if path.has_default_value then
      .call (.id "$.derived_safe_equal") [.arrowE [] false path.expression]
     else .arrowE [] false path.expression) ::
  (if dev then
    [JSStmt.exprStmt
      (if path.has_default_value then get_value (.id path.node)
       else .call (.id path.node) [])]
   else [])

/-- Lines 251–293: the declarations emitted for a destructuring item pattern:
one insert declaration per hoisted default value, then the per-leaf
declarations. -/
def destructure_decls (inp : EachInput) (p : Pattern) : List JSStmt :=
  let r := extract_paths_go p (unwrapped_item inp)
  r.1.enum.map insert_decl ++ r.2.flatMap (path_decls inp.dev)

mutual
/-- The names a pattern declares (its leaf identifiers).  These are exactly
the names whose entries lines 250 and 291 delete from the key state's
transform table. -/
def patternNames : Pattern → List String
  | .pid n => [n]
  | .pdefault p _ => patternNames p
  | .pobject props => patternNamesProps props
  | .parray els => patternNamesList els

def patternNamesProps : List (String × Pattern) → List String
  | [] => []
  | (_, p) :: rest => patternNames p ++ patternNamesProps rest

def patternNamesList : List Pattern → List String
  | [] => []
  | p :: rest => patternNames p ++ patternNamesList rest
end

/-- Lines 129–139 plus the full declarations accumulation: the statements
pushed onto `declarations` — the destructuring declarations when the item
pattern is not a plain identifier, then (lines 309–313) a `let` re-binding the
requested index name to the unique index identifier when a group binding
forced the unique one. -/
def each_declarations (inp : EachInput) : List JSStmt :=
  (match inp.context with
   | some (.pid _) => []
   | some p => destructure_decls inp p
   | none => []) ++
  (match inp.index with
   | some i =>
     if inp.contains_group_binding then [JSStmt.letDecl (.id i) (.id inp.meta_index)]
     else []
   | none => [])

/-- Lines 148–164: `key_uses_index` — the flag the key state's installed
index transform sets when the key expression's lowering reads the index
binding.  The transform is installed only when an index name was requested,
and reading a name the item pattern declares goes through the deleted entries
of lines 250/291 instead. -/
def key_uses_index (inp : EachInput) : Bool :=
  match inp.index with
  | some i =>
    (match inp.key with
     | some k => readsName k i
     | none => false) &&
    !(match inp.context with
      | some p => (patternNames p).contains i
      | none => false)
  | none => false

/-- Lines 297–307: the key function — the default `$.index` for unkeyed
constructs; for keyed constructs an arrow over the item pattern (plus the
index when the key expression read it) returning the key expression lowered
under `key_state`, where item and index read as raw nodes. -/
def key_function (inp : EachInput) : JSExpr :=
  if inp.keyed then
    match inp.context, inp.key with
    | some p, some k =>
      .arrowE (.pat p :: (if key_uses_index inp then [index_expr inp] else [])) false
        (embedIn k)
    | _, _ => .id "$.index"
  else .id "$.index"

/-- The final `uses_index` accumulator: seeded by `contains_group_binding`
(line 147) and set by the body traversal's installed callbacks. -/
def uses_index (inp : EachInput) : Bool :=
  inp.contains_group_binding || inp.body_uses_index

/-- Lines 319–321: the item renderer's parameter list — anchor and item,
the index when it was used or a capture identifier exists, and the capture
identifier when one was allocated. -/
def render_args (inp : EachInput) : List JSExpr :=
  [.id "$$anchor", item_expr inp] ++
  (if uses_index inp || (collection_id inp).isSome then [index_expr inp] else []) ++
  (match collection_id inp with
   | some c => [JSExpr.id c]
   | none => [])

/-- Line 316: `get_collection = b.thunk(collection, has_await)`. -/
def each_get_collection (inp : EachInput) : JSExpr :=
  .arrowE [] inp.has_await (collection inp)

/-- Line 317: the collection thunk passed to the runtime call — a thunk
reading `$.get($$collection)` when the collection is asynchronous, the
collection thunk itself otherwise. -/
def each_thunk (inp : EachInput) : JSExpr :=
  if inp.has_await then .arrowE [] false (.call (.id "$.get") [.id "$$collection"])
  else each_get_collection inp

/-- Lines 323–336: the arguments of the `$.each` runtime call — anchor, flags
literal, collection thunk, key function, the item renderer over the
declarations followed by the lowered body, and the fallback renderer when a
fallback block is present. -/
def each_args (inp : EachInput) : List JSExpr :=
  [.id inp.node_id, .litNum (Int.ofNat (each_flags inp)), each_thunk inp,
   key_function inp,
   .arrowB (render_args inp) (each_declarations inp ++ inp.body_block)] ++
  (match inp.fallback with
   | some fb => [JSExpr.arrowB [.id "$$anchor"] fb]
   | none => [])

/-- Lines 338–342: the statement list — the `$.each` call (wrapped by
`add_svelte_meta`, which the spec scopes out of this core: it is modelled as
the plain call statement), preceded in dev builds of keyed constructs by the
key-validation call. -/
def each_statements (inp : EachInput) : List JSStmt :=
  (if inp.dev && inp.keyed then
    [JSStmt.exprStmt (.call (.id "$.validate_each_keys") [each_thunk inp, key_function inp])]
   else []) ++
  [JSStmt.exprStmt (.call (.id "$.each") (each_args inp))]

/-- Lines 344–357: what is pushed onto `context.state.init` — for an
asynchronous collection, a single `$.async` registration whose dependency
array holds the collection thunk and whose body arrow (over the anchor and the
resolved `$$collection`) contains the statements; otherwise the statements
themselves. -/
def each_init (inp : EachInput) : List JSStmt :=
  if inp.has_await then
    [JSStmt.exprStmt (.call (.id "$.async")
      [.id inp.node_id, .arr [each_get_collection inp],
       .arrowB [.id inp.node_id, .id "$$collection"] (each_statements inp)])]
  else each_statements inp

/-! ## The CallExpression visitor -/

/-- The shape of a call node's callee, as far as the `console` check
discriminates it: an identifier, a member access whose object and property
are both identifiers, any other member access, or any other expression. -/
inductive CalleeShape where
  | identC : String → CalleeShape
  | memberII : String → String → CalleeShape
  | memberOther : CalleeShape
  | otherCallee : CalleeShape

/-- One argument of the call: whether it is a `SpreadElement`, the external
static evaluation's verdict (`context.state.scope.evaluate(arg).has_unknown`),
and the argument expression itself. -/
structure CallArg where
  is_spread : Bool
  has_unknown : Bool
  expr : InExpr

/-- The input to `CallExpression`: the recognized rune tag (`get_rune`, the
external scope-aware primitive recognition — `none` when the callee is not a
primitive or the name is locally rebound), the callee shape, the arguments,
the lexical scope chain consulted by `scope.get`, and the
`state_snapshot_uncloneable` ignore annotation consulted by `is_ignored`. -/
structure CallInput where
  rune : Option String
  callee : CalleeShape
  args : List CallArg
  scope : List (String × Binding)
  ignored_snapshot : Bool

/-- The visitor's outcome: a rewritten expression (an early `return`), or
falling through to the generic lowering (`context.next()`). -/
inductive LowerResult where
  | rewritten : JSExpr → LowerResult
  | fallthrough : LowerResult

/-- `context.visit(arg)` on an argument: a spread of the lowered expression
for a `SpreadElement`, the lowered expression otherwise. -/
def visit_arg (a : CallArg) : JSExpr :=
  if a.is_spread then .spreadE (embedIn a.expr) else embedIn a.expr

/-- The callee as an output expression. -/
def callee_js : CalleeShape → JSExpr
  | .identC n => .id n
  | .memberII o p => .member (.id o) (.id p) false
  | .memberOther => .id "$$member_callee"
  | .otherCallee => .id "$$other_callee"

/-- The callee property name, when the callee is an identifier member
access. -/
def callee_prop : CalleeShape → String
  | .memberII _ p => p
  | _ => ""

/-- The fixed set of logging method names of lines 82–84. -/
def log_method_names : List String :=
  ["debug", "dir", "error", "group", "groupCollapsed", "info", "log", "trace", "warn"]

/-- The callee part of the `console` check: a member expression whose object
is the identifier `console` and whose property is an identifier naming one of
the fixed logging methods. -/
def is_console_log_callee : CalleeShape → Bool
  | .memberII o p => o == "console" && log_method_names.contains p
  | _ => false

/-- Lines 75–88: the full guard of the capture-and-log rewrite — dev mode,
a `console.<method>` callee, `console` not resolvable in lexical scope, and
some argument a spread or not statically proven non-reactive. -/
def console_rewrite_cond (dev : Bool) (node : CallInput) : Bool :=
  dev && is_console_log_callee node.callee && (node.scope.lookup "console").isNone
    && node.args.any (fun a => a.is_spread || a.has_unknown)

/-- Lines 89–98: the rewritten `console` call — the original callee applied
to the spread of the capture-and-log helper over the method-name literal and
the lowered arguments. -/
def console_log_rewrite (node : CallInput) : JSExpr :=
  .call (callee_js node.callee)
    [.spreadE (.call (.id "$.log_if_contains_state")
      (.litStr (callee_prop node.callee) :: node.args.map visit_arg))]

/-- Line 101 and lines 75–99: what happens when no primitive matched —
the capture-and-log rewrite when its guard holds, otherwise fall through. -/
def lower_no_rune (dev : Bool) (node : CallInput) : LowerResult :=
  if console_rewrite_cond dev node then .rewritten (console_log_rewrite node)
  else .fallthrough

/-- `node.arguments[0]` for the rune branches that consume one argument
(rune calls are validated upstream to carry it). -/
def first_arg_expr (node : CallInput) : InExpr :=
  match node.args.head? with
  | some a => a.expr
  | none => .ident "undefined"

/-- Lines 27–42: the lowered initial value of a `$state`/`$state.raw` call —
absent when there is no argument, otherwise the lowered argument, wrapped in
`$.proxy` for the non-raw rune when `should_proxy` holds (`should_proxy`
lives outside `src/` and is taken as a parameter `sp`).  The builder module
drops the trailing absent argument (the spec's `declareState(initial?)`
contract). -/
def lower_state_value (sp : InExpr → Bool) (node : CallInput) (raw : Bool) : List JSExpr :=
  match node.args.head? with
  | some a =>
    [if !raw && sp a.expr then .call (.id "$.proxy") [embedIn a.expr] else embedIn a.expr]
  | none => []

/-- `transform_inspect_rune` from `phases/utils.js`.
Modelled from the spec: `$inspect`/`$inspect().with` delegate to a dedicated
instrumentation lowering routine (external); modelled as an opaque-shaped
marker call over the lowered arguments. -/
def transform_inspect_rune (node : CallInput) : JSExpr :=
  .call (.id "$$transform_inspect_rune") (node.args.map visit_arg)

/-- The `CallExpression` visitor (the whole file
`3-transform/client/visitors/CallExpression.js`): dispatch on the recognized
rune (the switch of lines 16–73, whose unmatched cases fall through), then
the `console` rewrite or the generic fallthrough. -/
def CallExpressionLower (dev : Bool) (sp : InExpr → Bool) (node : CallInput) : LowerResult :=
  match node.rune with
  | none => lower_no_rune dev node
  | some r =>
    if r = "$host" then .rewritten (.id "$$props.$$host")
    else if r = "$effect.tracking" then .rewritten (.call (.id "$.effect_tracking") [])
    else if r = "$state" then
      .rewritten (.call (.id "$.state") (lower_state_value sp node false))
    else if r = "$state.raw" then
      .rewritten (.call (.id "$.state") (lower_state_value sp node true))
    else if r = "$derived" then
      .rewritten (.call (.id "$.derived") [.arrowE [] false (embedIn (first_arg_expr node))])
    else if r = "$derived.by" then
      .rewritten (.call (.id "$.derived") [embedIn (first_arg_expr node)])
    else if r = "$state.snapshot" then
      .rewritten (.call (.id "$.snapshot")
        (embedIn (first_arg_expr node) ::
          (if node.ignored_snapshot then [JSExpr.btrue] else [])))
    else if r = "$effect.root" then
      .rewritten (.call (.id "$.effect_root") (node.args.map visit_arg))
    else if r = "$effect.pending" then .rewritten (.call (.id "$.pending") [])
    else if r = "$inspect" ∨ r = "$inspect().with" then
      .rewritten (transform_inspect_rune node)
    else lower_no_rune dev node

/-! ## Derived observations used to state and decide the properties -/

mutual
/-- The number of leaf bindings a pattern declares. -/
def countLeaves : Pattern → Nat
  | .pid _ => 1
  | .pdefault p _ => countLeaves p
  | .pobject props => countLeavesProps props
  | .parray els => countLeavesList els

def countLeavesProps : List (String × Pattern) → Nat
  | [] => 0
  | (_, p) :: rest => countLeaves p + countLeavesProps rest

def countLeavesList : List Pattern → Nat
  | [] => 0
  | p :: rest => countLeaves p + countLeavesList rest
end

mutual
/-- The number of default-value sub-expressions a pattern carries. -/
def countDefaults : Pattern → Nat
  | .pid _ => 0
  | .pdefault p _ => 1 + countDefaults p
  | .pobject props => countDefaultsProps props
  | .parray els => countDefaultsList els

def countDefaultsProps : List (String × Pattern) → Nat
  | [] => 0
  | (_, p) :: rest => countDefaults p + countDefaultsProps rest

def countDefaultsList : List Pattern → Nat
  | [] => 0
  | p :: rest => countDefaults p + countDefaultsList rest
end

/-- Is the pattern a plain identifier? -/
def isPlainIdent : Pattern → Bool
  | .pid _ => true
  | _ => false

/-- Is the statement a declaration binding a name to a derived value computed
from the item — a `var` of a `$.derived`, a `let` of a `$.derived_safe_equal`,
or a `let` of a bare thunk? -/
def isDerivedValueDecl : JSStmt → Bool
  | .varDecl _ (.call (.id "$.derived") _) => true
  | .letDecl _ (.call (.id "$.derived_safe_equal") _) => true
  | .letDecl _ (.arrowE [] _ _) => true
  | _ => false

/-- A coarse tag of one element of an emitted sequence expression: the
assignment, or the callee name of an invalidation call. -/
def seq_elem_tag : JSExpr → String
  | .assignE _ _ _ => "assignment"
  | .call (.id n) _ => n
  | _ => "other"

/-- The tags of a sequence expression's elements, in order. -/
def seq_tags : JSExpr → List String
  | .seq es => es.map seq_elem_tag
  | _ => []

/-- A coarse head tag of an output expression, separating raw identifiers,
member accesses and calls. -/
def head_tag : JSExpr → String
  | .id n => "id:" ++ n
  | .member _ _ _ => "member"
  | .call (.id n) _ => "call:" ++ n
  | _ => "other"

/-- The structural (element) children of the body. -/
def is_structural_child : Child → Bool
  | .regularElement _ => true
  | .svelteElement _ => true
  | .otherChild => false

def structural_children (body : List Child) : List Child :=
  body.filter is_structural_child

/-! ## Concrete inputs the witnesses and counterexamples evaluate -/

/-- A minimal concrete each block input: a runes-mode block
`{#each items as item}` with an empty body, whose own scope declares `item`
and whose ancestor chain declares `items`. -/
def exBase : EachInput := {
  expression := .ident "items",
  deps := [],
  has_await := false,
  keyed := false,
  is_controlled := false,
  contains_group_binding := false,
  transitive_deps := [],
  parent_transitive_deps := [],
  key := none,
  context := some (.pid "item"),
  index := none,
  body := [],
  body_block := [],
  body_uses_index := false,
  fallback := none,
  runes := true,
  dev := false,
  scope_own := [("item", ⟨"normal", 1, false⟩)],
  scope_ancestors := [("items", ⟨"normal", 0, false⟩)],
  function_depth := 1,
  meta_index := "$$index",
  node_id := "$$node" }

/-- A legacy-mode each block over a store subscription (`$items`), with
recorded transitive dependencies: both invalidation side effects apply. -/
def cexC1 : EachInput := { exBase with
  runes := false,
  expression := .ident "$items",
  transitive_deps := ["items"],
  scope_ancestors := [("$items", ⟨"store_sub", 0, false⟩), ("items", ⟨"normal", 0, false⟩)] }

/-- The destructuring pattern of the spec scenario: two leaf bindings, one
default-value sub-expression. -/
def pC2 : Pattern :=
  .pobject [("a", .pid "a"), ("b", .pdefault (.pid "b") (.call (.ident "f") []))]

/-- An each block whose item pattern is the destructuring pattern `pC2`. -/
def exC2 : EachInput := { exBase with context := some pC2 }

/-- A keyed each block whose body has two structural element children, the
first carrying the animation directive. -/
def cexC3 : EachInput := { exBase with
  keyed := true,
  key := some (.ident "k"),
  body := [.regularElement true, .regularElement false] }

/-- A runes-mode keyed each block with a shallower dependency, no store
dependency, and the key equal to the item identifier itself. -/
def exC4 : EachInput := { exBase with
  deps := [⟨"normal", 0, false⟩],
  keyed := true,
  key := some (.ident "item"),
  context := some (.pid "item"),
  runes := true }

/-- A legacy-mode each block whose loop variable `item` was reassigned in the
body, with no external dependency (so the item-reactive flag is clear). -/
def cexC5 : EachInput := { exBase with
  runes := false,
  scope_own := [("item", ⟨"normal", 1, true⟩)] }

/-- A keyed each block with an index whose key expression reads the index. -/
def exC7k : EachInput := { exBase with
  keyed := true,
  key := some (.ident "i"),
  context := some (.pid "item"),
  index := some "i" }

/-- An each block over an asynchronous collection expression. -/
def exC8 : EachInput := { exBase with has_await := true }

/-- A rune-less `console.log` call with one argument not statically provable
non-reactive, `console` not resolvable in scope. -/
def exC9 : CallInput := {
  rune := none,
  callee := .memberII "console" "log",
  args := [⟨false, true, .ident "x"⟩],
  scope := [],
  ignored_snapshot := false }

/-- A `$state()` call with no argument. -/
def exC10a : CallInput := {
  rune := some "$state",
  callee := .identC "$state",
  args := [],
  scope := [],
  ignored_snapshot := false }

/-- A `$state(1)` call with one argument. -/
def exC10b : CallInput := { exC10a with
  args := [⟨false, false, .lit 1⟩] }

/-! ## Helper lemmas about the flags bitset -/

/-- The item-reactive bit of the accumulated flags is exactly the condition of
the dependency loop. -/
theorem hasFlag_each_flags_item (inp : EachInput) :
    hasFlag (each_flags inp) EACH_ITEM_REACTIVE = item_reactive_cond inp := by
  unfold each_flags
  cases h1 : inp.keyed && inp.index.isSome <;>
    cases h2 : item_reactive_cond inp <;>
      cases h3 : inp.runes && !uses_store inp <;>
        cases h4 : animated_cond inp <;>
          cases h5 : inp.is_controlled <;>
            simp only [h1, h2, h3, h4, h5, if_true, if_false, Bool.false_eq_true,
              ite_true, ite_false] <;> decide

/-- The animated bit of the accumulated flags is exactly the animation
condition. -/
theorem hasFlag_each_flags_animated (inp : EachInput) :
    hasFlag (each_flags inp) EACH_IS_ANIMATED = animated_cond inp := by
  unfold each_flags
  cases h1 : inp.keyed && inp.index.isSome <;>
    cases h2 : item_reactive_cond inp <;>
      cases h3 : inp.runes && !uses_store inp <;>
        cases h4 : animated_cond inp <;>
          cases h5 : inp.is_controlled <;>
            simp only [h1, h2, h3, h4, h5, if_true, if_false, Bool.false_eq_true,
              ite_true, ite_false] <;> decide

/-! ## Helper lemmas about the destructuring decomposition -/

mutual
/-- The decomposition yields one insert per default-value sub-expression and
one path per leaf binding. -/
theorem extract_lengths (p : Pattern) (base : JSExpr) :
    (extract_paths_go p base).1.length = countDefaults p ∧
    (extract_paths_go p base).2.length = countLeaves p := by
  cases p with
  | pid n => simp [extract_paths_go, countDefaults, countLeaves]
  | pdefault q v =>
    have ih := extract_lengths q base
    simp [extract_paths_go, countDefaults, countLeaves, ih.1, ih.2]
    omega
  | pobject props =>
    have ih := extract_lengths_props props base
    simp [extract_paths_go, countDefaults, countLeaves, ih.1, ih.2]
  | parray els =>
    have ih := extract_lengths_elems els base 0
    simp [extract_paths_go, countDefaults, countLeaves, ih.1, ih.2]

theorem extract_lengths_props (props : List (String × Pattern)) (base : JSExpr) :
    (extract_paths_props props base).1.length = countDefaultsProps props ∧
    (extract_paths_props props base).2.length = countLeavesProps props := by
  cases props with
  | nil => simp [extract_paths_props, countDefaultsProps, countLeavesProps]
  | cons hd rest =>
    have ih1 := extract_lengths hd.2 (.member base (.litStr hd.1) false)
    have ih2 := extract_lengths_props rest base
    obtain ⟨k, q⟩ := hd
    simp [extract_paths_props, countDefaultsProps, countLeavesProps,
      ih1.1, ih1.2, ih2.1, ih2.2]

theorem extract_lengths_elems (els : List Pattern) (base : JSExpr) (i : Nat) :
    (extract_paths_elems els base i).1.length = countDefaultsList els ∧
    (extract_paths_elems els base i).2.length = countLeavesList els := by
  cases els with
  | nil => simp [extract_paths_elems, countDefaultsList, countLeavesList]
  | cons q rest =>
    have ih1 := extract_lengths q (.member base (.litNum (Int.ofNat i)) true)
    have ih2 := extract_lengths_elems rest base (i + 1)
    simp only [Int.ofNat_eq_coe] at ih1
    simp [extract_paths_elems, countDefaultsList, countLeavesList,
      ih1.1, ih1.2, ih2.1, ih2.2]
end

/-- Every insert declaration is a derived-value declaration. -/
theorem filter_insert_decls (l : List (Nat × Insert)) :
    ((l.map insert_decl).filter isDerivedValueDecl).length = l.length := by
  induction l with
  | nil => rfl
  | cons a rest ih =>
    have ha : isDerivedValueDecl (insert_decl a) = true := rfl
    simp [List.filter_cons, ha, ih]

/-- Per leaf path, exactly the `let` declaration (not the dev-mode eager
read) is a derived-value declaration. -/
theorem filter_path_decls (dev : Bool) (l : List PathInfo) :
    ((l.flatMap (path_decls dev)).filter isDerivedValueDecl).length = l.length := by
  induction l with
  | nil => rfl
  | cons a rest ih =>
    have h1 : isDerivedValueDecl (JSStmt.letDecl (.id a.node)
        (.call (.id "$.derived_safe_equal") [.arrowE [] false a.expression])) = true := rfl
    have h2 : isDerivedValueDecl (JSStmt.letDecl (.id a.node)
        (.arrowE [] false a.expression)) = true := rfl
    have h3 : ∀ e, isDerivedValueDecl (JSStmt.exprStmt e) = false := fun _ => rfl
    cases hdv : a.has_default_value <;> cases dev <;>
      simp [path_decls, hdv, List.filter_cons, List.filter_append, h1, h2, h3, ih]

/-- The destructuring declarations hold one derived-value declaration per
default-value insert plus one per leaf path. -/
theorem destructure_decls_count (inp : EachInput) (p : Pattern) :
    ((destructure_decls inp p).filter isDerivedValueDecl).length =
      countDefaults p + countLeaves p := by
  unfold destructure_decls
  rw [List.filter_append, List.length_append, filter_insert_decls, filter_path_decls]
  have h := extract_lengths p (unwrapped_item inp)
  simp [List.enum_length, h.1, h.2]

/-! ## The claims -/

/-- C1, counterexample: in the legacy-mode store-backed block `cexC1`, the
assignment strategy emits the indexed write followed by transitive-signal
invalidation and THEN store invalidation — not, as the claim states, store
invalidation first. -/
theorem C1_counterexample :
    item_assign cexC1 (.id "$$v") =
      JSExpr.seq [.assignE "=" (indexed_member cexC1) (.id "$$v"),
        .call (.id "$.invalidate_inner_signals")
          [.arrowE [] false (.seq [.id "items"])],
        .call (.id "$.invalidate_store") [.id "$$stores", .litStr "$items"]] ∧
    item_assign cexC1 (.id "$$v") ≠
      JSExpr.seq [.assignE "=" (indexed_member cexC1) (.id "$$v"),
        .call (.id "$.invalidate_store") [.id "$$stores", .litStr "$items"],
        .call (.id "$.invalidate_inner_signals")
          [.arrowE [] false (.seq [.id "items"])]] := by
  refine ⟨rfl, fun h => absurd (congrArg seq_tags h) ?_⟩
  decide

/-- C1 (amended): for an iteration construct whose item pattern is a plain
identifier, reassigning the loop variable lowers to an indexed write into the
original collection (through the captured identifier if shadowed), followed
first by transitive-signal invalidation (emitted in legacy mode when
transitive dependencies exist) and then by store invalidation (when a
store-backed collection applies), in that fixed order within the emitted
sequence expression. -/
theorem C1_assign_invalidation_order (inp : EachInput) (n : String) (value : JSExpr)
    (s : String) (_hc : inp.context = some (.pid n))
    (hstore : store_to_invalidate inp = some s) (hlegacy : inp.runes = false)
    (hdeps : (all_transitive_deps inp).isEmpty = false) :
    item_assign inp value =
      .seq [.assignE "="
          (.member (match collection_id inp with
            | some c => JSExpr.call (.id c) []
            | none => collection inp)
           (if hasFlag (each_flags inp) EACH_INDEX_REACTIVE then get_value (index_expr inp)
            else index_expr inp) true)
          value,
        .call (.id "$.invalidate_inner_signals")
          [.arrowE [] false (.seq ((all_transitive_deps inp).map (visit_transitive_dep inp)))],
        .call (.id "$.invalidate_store") [.id "$$stores", .litStr s]] := by
  simp [item_assign, each_sequence, indexed_member, hstore, hlegacy, hdeps]

/-- C1, witness: the amended order theorem evaluated on the concrete
legacy-mode store-backed block. -/
theorem C1_witness :
    item_assign cexC1 (.id "$$v") =
      JSExpr.seq [.assignE "=" (.member (.id "$items") (.id "$$index") true) (.id "$$v"),
        .call (.id "$.invalidate_inner_signals")
          [.arrowE [] false (.seq [.id "items"])],
        .call (.id "$.invalidate_store") [.id "$$stores", .litStr "$items"]] :=
  C1_assign_invalidation_order cexC1 "item" (.id "$$v") "$items" rfl rfl rfl rfl

/-- C2: for an iteration construct whose item pattern is a destructuring
pattern, lowering produces exactly one derived-value declaration per leaf
binding plus one extra derived declaration per default-value sub-expression
(the hoisted defaults and memoizing reads ensure a default is evaluated per
reactive recomputation, not per read). -/
theorem C2_destructured_decl_count (inp : EachInput) (p : Pattern)
    (hc : inp.context = some p) (hnp : isPlainIdent p = false) :
    ((each_declarations inp).filter isDerivedValueDecl).length =
      countLeaves p + countDefaults p := by
  have hdest : (match inp.context with
      | some (.pid _) => ([] : List JSStmt)
      | some q => destructure_decls inp q
      | none => []) = destructure_decls inp p := by
    rw [hc]
    cases p with
    | pid n => simp [isPlainIdent] at hnp
    | pdefault q v => rfl
    | pobject props => rfl
    | parray els => rfl
  have hidx : ((match inp.index with
      | some i =>
        if inp.contains_group_binding then [JSStmt.letDecl (.id i) (.id inp.meta_index)]
        else []
      | none => ([] : List JSStmt)).filter isDerivedValueDecl) = [] := by
    cases inp.index with
    | none => rfl
    | some i =>
      cases hg : inp.contains_group_binding <;> simp [hg, isDerivedValueDecl]
  unfold each_declarations
  rw [hdest, List.filter_append, hidx, List.length_append,
    destructure_decls_count]
  simp [Nat.add_comm]

/-- C2, witness: the pattern of the spec scenario, two leaves and one
default, yields exactly three derived-value declarations. -/
theorem C2_witness :
    ((each_declarations exC2).filter isDerivedValueDecl).length = 3 ∧
    countLeaves pC2 = 2 ∧ countDefaults pC2 = 1 := by
  refine ⟨?_, ?_, ?_⟩
  · have h := C2_destructured_decl_count exC2 pC2 rfl rfl
    refine h.trans ?_
    simp [pC2, countLeaves, countLeavesProps, countDefaults, countDefaultsProps]
  · simp [pC2, countLeaves, countLeavesProps]
  · simp [pC2, countDefaults, countDefaultsProps]

/-- C3, counterexample: a keyed construct whose body has TWO structural
children, one carrying the animation directive, still gets the animated flag
set — refuting the claim that bodies with multiple structural children never
set it. -/
theorem C3_counterexample :
    hasFlag (each_flags cexC3) EACH_IS_ANIMATED = true ∧
    (structural_children cexC3.body).length = 2 := by
  constructor <;> rfl

/-- C3 (amended): the animated flag is set if and only if the key is present
and some structural child element of the body carries the animation directive
(upstream validation restricts such a directive to a sole child; the encoder
itself does not re-check arity, so zero-children bodies clear the flag but
multi-children bodies follow the some-child rule). -/
theorem C3_animated_flag_iff (inp : EachInput) :
    hasFlag (each_flags inp) EACH_IS_ANIMATED = true ↔
      inp.key.isSome = true ∧ ∃ c ∈ inp.body, child_has_animate c = true := by
  rw [hasFlag_each_flags_animated]
  unfold animated_cond
  simp [List.any_eq_true]

/-- C4: the item-reactive flag is set if and only if some dependency of the
collection expression is declared at a shallower function depth than the
construct's own scope AND (legacy mode is active, or the key is not simply
the item identifier itself, or a store-subscription dependency exists); in
runes mode with no store dependency and key equal to the item itself the flag
is clear. -/
theorem C4_item_reactive_flag (inp : EachInput) :
    (hasFlag (each_flags inp) EACH_ITEM_REACTIVE = true ↔
      (∃ b ∈ inp.deps, b.function_depth < inp.function_depth) ∧
        (inp.runes = false ∨ key_is_item inp = false ∨ uses_store inp = true)) ∧
    (inp.runes = true → uses_store inp = false → key_is_item inp = true →
      hasFlag (each_flags inp) EACH_ITEM_REACTIVE = false) := by
  rw [hasFlag_each_flags_item]
  unfold item_reactive_cond
  constructor
  · simp [List.any_eq_true, Bool.and_eq_true, Bool.or_eq_true, Bool.not_eq_true']
    tauto
  · intro h1 h2 h3
    simp [h1, h2, h3]

/-- C4, witness: a runes-mode block with a shallower dependency but no store
dependency and an item-identity key has the flag clear. -/
theorem C4_witness : hasFlag (each_flags exC4) EACH_ITEM_REACTIVE = false :=
  (C4_item_reactive_flag exC4).2 rfl rfl rfl

/-- C5, counterexample: in the legacy block `cexC5`, the loop variable's
binding is reassigned and the item-reactive flag is clear, yet the installed
read strategy returns an indexed member access into the collection, not the
raw reference the claim states. -/
theorem C5_counterexample :
    hasFlag (each_flags cexC5) EACH_ITEM_REACTIVE = false ∧
    scopeGet cexC5 "item" = some ⟨"normal", 1, true⟩ ∧
    item_read cexC5 ⟨"normal", 1, true⟩ (.id "item") = indexed_member cexC5 ∧
    item_read cexC5 ⟨"normal", 1, true⟩ (.id "item") ≠ .id "item" := by
  refine ⟨rfl, rfl, rfl, fun h => absurd (congrArg head_tag h) ?_⟩
  decide

/-- C5 (amended): for an iteration construct whose item pattern is a plain
identifier, the installed read strategy returns — when the binding was never
reassigned — the raw reference if the item-reactive flag is clear and the
reactive-read form if it is set; when the binding was reassigned it returns an
indexed read into the live collection instead. -/
theorem C5_item_read_cases (inp : EachInput) (n : String) (bdg : Binding) (node : JSExpr)
    (_hc : inp.context = some (.pid n)) (_hb : scopeGet inp n = some bdg) :
    (bdg.reassigned = false →
      item_read inp bdg node =
        if hasFlag (each_flags inp) EACH_ITEM_REACTIVE then get_value node else node) ∧
    (bdg.reassigned = true → item_read inp bdg node = indexed_member inp) := by
  unfold item_read
  constructor <;> intro h <;> simp [h]

/-- C5, witness: on the base block, whose item binding is never reassigned
and whose item-reactive flag is clear, the read strategy returns the raw
reference. -/
theorem C5_witness :
    item_read exBase ⟨"normal", 1, false⟩ (.id "item") = .id "item" := by
  have h := (C5_item_read_cases exBase "item" ⟨"normal", 1, false⟩ (.id "item")
    rfl rfl).1 rfl
  exact h.trans (by rfl)

/-- C6: a shadow-capture identifier for the live collection is allocated if
and only if some name declared in the construct's own scope also resolves in
an ancestor scope; when no collision exists, the emitted item renderer's
parameter list is just anchor, item and (when used) the index — no capture
identifier. -/
theorem C6_collection_capture (inp : EachInput) :
    ((collection_id inp).isSome = true ↔
      ∃ q ∈ inp.scope_own, (parentGet inp q.1).isSome = true) ∧
    (collection_id inp = none →
      render_args inp =
        [.id "$$anchor", item_expr inp] ++
        (if uses_index inp then [index_expr inp] else [])) := by
  constructor
  · unfold collection_id
    cases h : inp.scope_own.any (fun p => (parentGet inp p.1).isSome) <;>
      simp_all [List.any_eq_true]
    exact h
  · intro h
    simp [render_args, h]

/-- C6, witness: the base block has no shadowing collision and its renderer
takes only anchor and item. -/
theorem C6_witness : render_args exBase = [.id "$$anchor", .id "item"] := by
  have h := (C6_collection_capture exBase).2 rfl
  exact h.trans (by rfl)

/-- C7: for unkeyed constructs the emitted key function is the default
index-based one; for keyed constructs it is an arrow over the item pattern
whose parameter list includes the index parameter if and only if the key
expression reads the index binding (given the index name is not shadowed by
the item pattern). -/
theorem C7_key_function_shape (inp : EachInput) :
    (inp.keyed = false → key_function inp = .id "$.index") ∧
    (∀ p k, inp.keyed = true → inp.context = some p → inp.key = some k →
      (∀ i, inp.index = some i → (patternNames p).contains i = false) →
      key_function inp =
        .arrowE (.pat p :: (if key_uses_index inp then [index_expr inp] else [])) false
          (embedIn k) ∧
      (key_uses_index inp = true ↔ ∃ i, inp.index = some i ∧ readsName k i = true)) := by
  constructor
  · intro h
    simp [key_function, h]
  · intro p k hk hc hkey hwf
    constructor
    · simp [key_function, hk, hc, hkey]
    · unfold key_uses_index
      cases hi : inp.index with
      | none => simp
      | some i =>
        have hw := hwf i hi
        have hw2 : i ∉ patternNames p := by simpa using hw
        simp [hkey, hc, hi]
        exact fun _ => hw2

/-- C7, witness: a keyed block whose key reads the index gets the index
parameter; the unkeyed base block gets the default key function. -/
theorem C7_witness :
    key_function exC7k = .arrowE [.pat (.pid "item"), .id "i"] false (.id "i") ∧
    key_function exBase = .id "$.index" := by
  constructor
  · have h := ((C7_key_function_shape exC7k).2 (.pid "item") (.ident "i") rfl rfl rfl
      (fun i hi => by
        have h2 : some "i" = some i := hi
        cases h2
        simp [patternNames])).1
    refine h.trans ?_
    have hku : key_uses_index exC7k = true := by
      simp [key_uses_index, patternNames, readsName, exC7k, exBase]
    rw [hku]
    rfl
  · exact (C7_key_function_shape exBase).1 rfl

/-- C8: for an asynchronous collection the output is a single
deferred-construction registration whose body arrow contains the synchronous
construction statements and whose collection thunk reads the resolved value
through `$.get($$collection)`; for synchronous collections the statements are
emitted directly with the plain collection thunk and no wrapper. -/
theorem C8_async_wrapper (inp : EachInput) :
    (inp.has_await = true →
      each_init inp =
        [JSStmt.exprStmt (.call (.id "$.async")
          [.id inp.node_id, .arr [each_get_collection inp],
           .arrowB [.id inp.node_id, .id "$$collection"] (each_statements inp)])] ∧
      each_thunk inp = .arrowE [] false (.call (.id "$.get") [.id "$$collection"]) ∧
      each_get_collection inp = .arrowE [] true (collection inp)) ∧
    (inp.has_await = false →
      each_init inp = each_statements inp ∧
      each_thunk inp = .arrowE [] false (collection inp)) := by
  constructor <;> intro h <;>
    simp [each_init, each_thunk, each_get_collection, h]

/-- C8, witness: the async block's full emitted registration, with the
`$.each` call only inside the registration's body arrow. -/
theorem C8_witness :
    each_init exC8 =
      [JSStmt.exprStmt (.call (.id "$.async")
        [.id "$$node", .arr [.arrowE [] true (.id "items")],
         .arrowB [.id "$$node", .id "$$collection"]
           [JSStmt.exprStmt (.call (.id "$.each")
             [.id "$$node", .litNum 16,
              .arrowE [] false (.call (.id "$.get") [.id "$$collection"]),
              .id "$.index",
              .arrowB [.id "$$anchor", .id "item"] []])]])] := by
  have h := ((C8_async_wrapper exC8).1 rfl).1
  exact h.trans (by rfl)

/-- C9: for a call matching no recognized primitive, the capture-and-log
rewrite is applied if and only if development mode is active, the callee is a
console member access with one of the fixed logging method names, `console`
is not resolvable in lexical scope, and some argument is a spread or not
statically proven non-reactive; otherwise the call falls through to the
generic lowering. -/
theorem C9_console_rewrite (dev : Bool) (sp : InExpr → Bool) (node : CallInput)
    (hr : node.rune = none) :
    ((CallExpressionLower dev sp node ≠ .fallthrough) ↔
      (dev = true ∧ is_console_log_callee node.callee = true ∧
        node.scope.lookup "console" = none ∧
        node.args.any (fun a => a.is_spread || a.has_unknown) = true)) ∧
    (console_rewrite_cond dev node = true →
      CallExpressionLower dev sp node = .rewritten (console_log_rewrite node)) := by
  have hred : CallExpressionLower dev sp node = lower_no_rune dev node := by
    unfold CallExpressionLower
    rw [hr]
  rw [hred]
  have hiff : console_rewrite_cond dev node = true ↔
      (dev = true ∧ is_console_log_callee node.callee = true ∧
        node.scope.lookup "console" = none ∧
        node.args.any (fun a => a.is_spread || a.has_unknown) = true) := by
    unfold console_rewrite_cond
    simp [Bool.and_eq_true, Option.isNone_iff_eq_none, and_assoc]
  constructor
  · rw [← hiff]
    unfold lower_no_rune
    cases h : console_rewrite_cond dev node <;> simp [h]
  · intro h
    unfold lower_no_rune
    simp [h]

/-- C9, witness: a dev-mode `console.log(x)` with a non-provable argument is
rewritten through the capture-and-log helper. -/
theorem C9_witness :
    CallExpressionLower true (fun _ => false) exC9 =
      .rewritten (console_log_rewrite exC9) ∧
    console_rewrite_cond true exC9 = true := by
  refine ⟨(C9_console_rewrite true (fun _ => false) exC9 rfl).2 ?_, ?_⟩ <;> rfl

/-- C10: a declare-state call with no argument (plain or raw form) lowers to
the runtime state constructor with no initial value and never applies proxy
wrapping; with an argument, the raw form never wraps, and the plain form
wraps exactly when the static analysis requires deep wrapping. -/
theorem C10_state_rune (dev : Bool) (sp : InExpr → Bool) (node : CallInput) :
    ((node.rune = some "$state" ∨ node.rune = some "$state.raw") → node.args = [] →
      CallExpressionLower dev sp node = .rewritten (.call (.id "$.state") [])) ∧
    (∀ a rest, node.rune = some "$state.raw" → node.args = a :: rest →
      CallExpressionLower dev sp node =
        .rewritten (.call (.id "$.state") [embedIn a.expr])) ∧
    (∀ a rest, node.rune = some "$state" → node.args = a :: rest →
      CallExpressionLower dev sp node =
        .rewritten (.call (.id "$.state")
          [if sp a.expr then .call (.id "$.proxy") [embedIn a.expr]
           else embedIn a.expr])) := by
  refine ⟨?_, ?_, ?_⟩
  · rintro (hr | hr) hargs <;>
      simp [CallExpressionLower, hr, lower_state_value, hargs]
  · intro a rest hr hargs
    simp [CallExpressionLower, hr, lower_state_value, hargs]
  · intro a rest hr hargs
    simp [CallExpressionLower, hr, lower_state_value, hargs]

/-- C10, witness: `$state()` lowers to `$.state()` with no proxy; `$state(1)`
with the static analysis demanding wrapping lowers to a proxied initial
value. -/
theorem C10_witness :
    CallExpressionLower false (fun _ => true) exC10a =
      .rewritten (.call (.id "$.state") []) ∧
    CallExpressionLower false (fun _ => true) exC10b =
      .rewritten (.call (.id "$.state") [.call (.id "$.proxy") [.litNum 1]]) := by
  constructor
  · exact (C10_state_rune false (fun _ => true) exC10a).1 (Or.inl rfl) rfl
  · have h := (C10_state_rune false (fun _ => true) exC10b).2.2 ⟨false, false, .lit 1⟩ [] rfl rfl
    exact h.trans (by rfl)

end SvelteLower
